import Mathlib

/-!
Verification of the hardware-simulation test layer
(`gtest/gtest.h`, `stubs/Arduino_stubs.cpp`, mock HTTP client header).

Each C++ component is shallowly embedded as explicit state passing over
plain Lean data. Machine integers are modelled as `Int` with explicit
wrapping where a conversion matters (`int` -> `size_t` in
`std::string::find`, `size_t` -> `int` in `indexOf`).
-/

/-! ## Test framework (`gtest/gtest.h`)

A test body is modelled by its observable outcome. A failed C `assert`
(which is what every `ASSERT_*` macro in `gtest.h` expands to) calls
`abort()`: it is not a C++ exception, so it cannot be caught by the
runner's `catch` blocks and terminates the whole process. -/

/-- Outcome of running one test body: normal return, a thrown
`std::exception`, some other thrown object, or a call to `abort()`
(what a failed `assert` does). -/
inductive Outcome where
  | ok
  | exn (msg : String)
  | exnOther
  | aborted
deriving DecidableEq, Repr

/-- One catalog entry of `TestRegistry`: qualified name plus body
(represented by the body's outcome). -/
structure TestInfo where
  name : String
  func : Outcome
deriving DecidableEq, Repr

/-- `TestRegistry::register_test`: unconditionally appends to the catalog
(`tests_.push_back({name, func})`). -/
def register_test (tests : List TestInfo) (name : String) (func : Outcome) : List TestInfo :=
  tests ++ [⟨name, func⟩]

/-- `ASSERT_EQ(a, b)` expands to `assert((a) == (b))`: on success the body
continues (`ok` when nothing else follows), on failure the C runtime
calls `abort()`, terminating the process. -/
def ASSERT_EQ (a b : Int) : Outcome :=
  if a = b then .ok else .aborted

/-- `TestRegistry::run_all_tests`: iterates the catalog in order, invoking
each body inside `try/catch`; a caught exception increments `failures`;
the loop then continues. Result: the list of entries whose body was
actually invoked, and `some failures` if the loop ran to completion and
returned, or `none` if a body called `abort()` (the process died and the
function never returned). -/
def run_all_tests : List TestInfo → List TestInfo × Option Nat
  | [] => ([], some 0)
  | t :: ts =>
    match t.func with
    | .ok =>
      let r := run_all_tests ts
      (t :: r.1, r.2)
    | .exn _ =>
      let r := run_all_tests ts
      (t :: r.1, r.2.map (· + 1))
    | .exnOther =>
      let r := run_all_tests ts
      (t :: r.1, r.2.map (· + 1))
    | .aborted => ([t], none)

/-- Observable trace of one `TEST_F` driver function
(`TestFunc_<fixture>_<name>`). -/
structure FixtureRun where
  setUpRan : Bool
  bodyRan : Bool
  tearDownRan : Bool
  outcome : Outcome
deriving DecidableEq, Repr

/-- The `TEST_F` driver: `test.SetUp(); test.TestBody(); test.TearDown();`
in straight-line sequence. A hook that throws propagates out immediately
and a hook that aborts kills the process, so each later call runs only
if every earlier call returned normally. -/
def TEST_F_run (setUpO bodyO tearDownO : Outcome) : FixtureRun :=
  match setUpO with
  | .ok =>
    match bodyO with
    | .ok => ⟨true, true, true, tearDownO⟩
    | o => ⟨true, true, false, o⟩
  | o => ⟨true, false, false, o⟩

/-! ## Console model (`SerialClass` in `Arduino_stubs.cpp`) -/

/-- State of the `Serial` singleton: per-call logs, running output
buffer, configured baud and call counters. -/
structure SerialState where
  print_calls : List String
  println_calls : List String
  outputBuffer : String
  begin_baud : Int
  begin_call_count : Nat
  println_call_count : Nat
  print_call_count : Nat
  last_baud_rate : Int
deriving DecidableEq, Repr

namespace SerialState

/-- `SerialClass::reset`: clears the logs and buffer and zeroes every
counter and baud field. -/
def reset (_ : SerialState) : SerialState :=
  ⟨[], [], "", 0, 0, 0, 0, 0⟩

/-- The state of a freshly constructed `SerialClass` (all containers
empty; the counters are value-initialized to zero). -/
def init : SerialState := ⟨[], [], "", 0, 0, 0, 0, 0⟩

/-- `SerialClass::begin(int baud)`. -/
def begin_ (s : SerialState) (baud : Int) : SerialState :=
  { s with begin_baud := baud, last_baud_rate := baud,
           begin_call_count := s.begin_call_count + 1 }

/-- `SerialClass::print(const char* str)`: logs the fragment, appends it
to the output buffer, increments the print counter. -/
def print_cstr (s : SerialState) (str : String) : SerialState :=
  { s with print_calls := s.print_calls ++ [str],
           outputBuffer := s.outputBuffer ++ str,
           print_call_count := s.print_call_count + 1 }

/-- `SerialClass::println(const char* str)`: logs the fragment, appends
it plus a newline to the output buffer, increments the println
counter. -/
def println_cstr (s : SerialState) (str : String) : SerialState :=
  { s with println_calls := s.println_calls ++ [str],
           outputBuffer := s.outputBuffer ++ str ++ "\n",
           println_call_count := s.println_call_count + 1 }

/-- `SerialClass::print(int val)`: pushes `std::to_string(val)` onto the
per-call log and writes to `std::cout`; it touches neither
`outputBuffer` nor `print_call_count`. -/
def print_int (s : SerialState) (val : Int) : SerialState :=
  { s with print_calls := s.print_calls ++ [toString val] }

/-- `SerialClass::println(int val)`: pushes `std::to_string(val)` onto
the per-call log and writes to `std::cout`; it touches neither
`outputBuffer` nor `println_call_count`. -/
def println_int (s : SerialState) (val : Int) : SerialState :=
  { s with println_calls := s.println_calls ++ [toString val] }

/-- `SerialClass::print(const String& str)`: same effect as the
`const char*` overload, on `str.content`. -/
def print_String (s : SerialState) (str : String) : SerialState :=
  print_cstr s str

/-- `SerialClass::println(const String& str)`: same effect as the
`const char*` overload, on `str.content`. -/
def println_String (s : SerialState) (str : String) : SerialState :=
  println_cstr s str

end SerialState

/-! ## Digital I/O model (`Arduino_stubs.cpp` globals) -/

/-- The global stub state touched by `reset_arduino_stubs`: the pin-state
map, the digital-write call log, the delay call log and the `Serial`
singleton. `pin_states` is an association list newest-first, which is
observationally the `std::map<int,int>` of the source (a read of an
absent key yields the value-initialized default 0). -/
structure ArduinoState where
  pin_states : List (Int × Int)
  mock_digitalWrite_calls : List (Int × Int)
  mock_delay_calls : List Nat
  serial : SerialState
deriving DecidableEq, Repr

/-- The state at process start: every container empty. -/
def arduinoInit : ArduinoState := ⟨[], [], [], SerialState.init⟩

/-- `reset_arduino_stubs`: clears the write log, the delay log and the
pin-state map, and resets `Serial`. -/
def reset_arduino_stubs (s : ArduinoState) : ArduinoState :=
  ⟨[], [], [], s.serial.reset⟩

/-- `digitalWrite(pin, value)`: appends `{pin, value}` to the call log
and stores `value` under `pin` in the pin-state map. -/
def digitalWrite (s : ArduinoState) (pin value : Int) : ArduinoState :=
  { s with mock_digitalWrite_calls := s.mock_digitalWrite_calls ++ [(pin, value)],
           pin_states := (pin, value) :: s.pin_states }

/-- `digitalRead(pin)`: returns `pin_states[pin]`; `std::map::operator[]`
yields the value-initialized default 0 for a key never written. -/
def digitalRead (s : ArduinoState) (pin : Int) : Int :=
  ((s.pin_states.find? (fun p => p.1 == pin)).map Prod.snd).getD 0

/-- `delay(ms)`: only records the request; it never sleeps. -/
def delay (s : ArduinoState) (ms : Nat) : ArduinoState :=
  { s with mock_delay_calls := s.mock_delay_calls ++ [ms] }

/-- Runs a sequence of `digitalWrite(pin, value)` calls in order. -/
def applyWrites (s : ArduinoState) (ws : List (Int × Int)) : ArduinoState :=
  ws.foldl (fun s w => digitalWrite s w.1 w.2) s

/-- The value of the most recent write to `pin` in the call sequence
`ws`, if any write to `pin` occurred. -/
def mostRecentWrite (ws : List (Int × Int)) (pin : Int) : Option Int :=
  match ws with
  | [] => none
  | w :: rest =>
    (mostRecentWrite rest pin).or (if w.1 = pin then some w.2 else none)

/-! ## Network client model (`HTTPClient` in `Arduino_stubs.cpp`,
configuration setters as on `MockHTTPClient`) -/

/-- State of the mock HTTP client: begin counter, last url, the injected
status code returned by `GET()` and the injected body returned by
`getString()`. -/
structure HTTPClient where
  begin_call_count : Nat
  begin_url : String
  GET_return : Int
  getString_return : String
deriving DecidableEq, Repr

namespace HTTPClient

/-- `HTTPClient::begin(url)`: counts the call and records the target. -/
def begin_ (c : HTTPClient) (url : String) : HTTPClient :=
  { c with begin_call_count := c.begin_call_count + 1, begin_url := url }

/-- `HTTPClient::GET()`: returns the injected status code. -/
def GET (c : HTTPClient) : Int := c.GET_return

/-- `HTTPClient::getString()`: returns (a copy of) the injected body. -/
def getString (c : HTTPClient) : String := c.getString_return

/-- Test-side configuration of the injected status code
(`setResponseCode`): assigns the `GET_return` member. -/
def setResponseCode (c : HTTPClient) (code : Int) : HTTPClient :=
  { c with GET_return := code }

/-- Test-side configuration of the injected body (`setResponseString`):
assigns the `getString_return` member. -/
def setResponseString (c : HTTPClient) (body : String) : HTTPClient :=
  { c with getString_return := body }

/-- `HTTPClient::reset()`: zeroes the begin counter, clears the url,
restores status 200 and empty body. -/
def reset (_ : HTTPClient) : HTTPClient :=
  ⟨0, "", 200, ""⟩

end HTTPClient

/-! ## Filesystem model (`SPIFFSClass` / `File` in `Arduino_stubs.cpp`)

`File::available` reads and increments a function-local `static int
count` — a single counter shared by every `File` object in the process.
The process-wide counter is the explicit state below. -/

/-- The fixed synthetic stream length of `File::available`
(`count++ < 10`). -/
def streamLength : Nat := 10

/-- `SPIFFSClass::open(path, mode)`: prints a trace line and returns a
default-constructed `File`; it does not touch the shared counter, and
the returned handle carries no state of its own. The result is the
unchanged counter. -/
def SPIFFSClass.open (_path _mode : String) (count : Nat) : Nat := count

/-- `File::available()`: returns `count < 10` and increments the shared
static counter. -/
def File.available (count : Nat) : Bool × Nat := (count < streamLength, count + 1)

/-- `File::read()`: always returns the filler byte 'a'. -/
def File.read : Char := 'a'

/-- Runs `k` consecutive `File::available()` calls, returning their
results in order and the final counter. -/
def availableRun : Nat → Nat → List Bool × Nat
  | 0, count => ([], count)
  | k + 1, count =>
    let r := File.available count
    let rest := availableRun k r.2
    (r.1 :: rest.1, rest.2)

/-! ## Text value type (`String` in `Arduino_stubs.cpp`)

The C++ `String` wraps a `std::string content`; it is modelled by the
Lean `String` holding that content, with each member function a function
on it. -/

namespace ArduinoString

/-- `String::length()`: the byte count, as the C++ `int` it returns. -/
def length (content : String) : Int := content.length

/-- `String::substring(start, end)`: `end == -1` means "to end"; `start`
is clamped to at least 0 and `end` down to the length; an empty or
inverted range yields `String("")`; otherwise
`content.substr(start, end - start)`. -/
def substring (content : String) (start e : Int) : String :=
  let len : Int := content.length
  let e1 : Int := if e = -1 then len else e
  let start1 : Int := if start < 0 then 0 else start
  let e2 : Int := if e1 > len then len else e1
  if start1 ≥ e2 then ""
  else String.mk ((content.toList.drop start1.toNat).take (e2 - start1).toNat)

/-- `isspace` of the default C locale, used by `std::stoi` to skip
leading whitespace. -/
def isCSpace (c : Char) : Bool :=
  c == ' ' || c == '\t' || c == '\n' || c == '\x0b' || c == '\x0c' || c == '\r'

/-- Decimal value of a digit run. -/
def digitsVal (ds : List Char) : Nat :=
  ds.foldl (fun a c => a * 10 + (c.toNat - 48)) 0

/-- Smallest C++ `int`. -/
def INT_MIN : Int := -(2 ^ 31)

/-- Largest C++ `int`. -/
def INT_MAX : Int := 2 ^ 31 - 1

/-- `String::toInt()`: `std::stoi(content)` inside `try/catch`. `stoi`
skips leading whitespace, consumes an optional sign and then a maximal
run of decimal digits; no digit at all throws `invalid_argument` and a
value outside `int` throws `out_of_range` — both are caught and turned
into 0. -/
def toInt (content : String) : Int :=
  let cs := content.toList.dropWhile isCSpace
  let sign : Int := if cs.head? = some '-' then -1 else 1
  let body : List Char :=
    if cs.head? = some '-' ∨ cs.head? = some '+' then cs.tail else cs
  let ds := body.takeWhile Char.isDigit
  if ds.isEmpty then 0
  else
    let v : Int := sign * (digitsVal ds : Int)
    if v < INT_MIN ∨ INT_MAX < v then 0 else v

/-- The needle occurs in the haystack at position `i`: it fits and
matches character for character (`std::string` occurrence test). -/
def occursAt (hay needle : List Char) (i : Nat) : Bool :=
  decide (i + needle.length ≤ hay.length) && needle.isPrefixOf (hay.drop i)

/-- `std::string::find(needle, pos)`: the smallest position `i ≥ pos` at
which the needle occurs (`i` can be at most `size()`, reached only by an
empty needle); `npos` — here `none` — when there is none, in particular
whenever `pos > size()`. -/
def stringFind (hay needle : List Char) (pos : Nat) : Option Nat :=
  (List.range' pos (hay.length + 1 - pos)).find? (occursAt hay needle)

/-- The `int` -> `size_t` conversion applied to `fromIndex` when it is
passed to `std::string::find`: reduction modulo 2^64 (a negative `int`
becomes a number near 2^64). -/
def cppSizeT (i : Int) : Nat := (i % (2 ^ 64)).toNat

/-- The `static_cast<int>(pos)` applied to a found position: wraparound
into [-2^31, 2^31). -/
def cppIntOfNat (n : Nat) : Int := ((n : Int) + 2 ^ 31) % 2 ^ 32 - 2 ^ 31

/-- `String::indexOf(needle, fromIndex)`:
`content.find(needle, fromIndex)` with the `int` argument converted to
`size_t`, returning -1 for `npos` and the cast position otherwise. -/
def indexOf (content needle : String) (fromIndex : Int) : Int :=
  match stringFind content.toList needle.toList (cppSizeT fromIndex) with
  | some i => cppIntOfNat i
  | none => -1

/-- Modelled from the spec: "`indexOf(needle, fromIndex)` returns the
first match position at or after `fromIndex`, or a not-found sentinel
(−1)" — the first position `i` with `fromIndex ≤ i` at which the needle
occurs, or -1 when no such position exists. -/
def specIndexOf (content needle : String) (fromIndex : Int) : Int :=
  match (List.range (content.length + 1)).find?
      (fun (i : Nat) => decide (fromIndex ≤ (i : Int)) &&
        occursAt content.toList needle.toList i) with
  | some i => (i : Int)
  | none => -1

/-- The clamp the spec applies to `start`: at least 0. -/
def clampStart (s : Int) : Int := if s < 0 then 0 else s

/-- The clamp the spec applies to `end`: the length when `end` is the
to-end sentinel -1 or exceeds the length, `end` itself otherwise. -/
def clampEnd (content : String) (e : Int) : Int :=
  if e = -1 ∨ (content.length : Int) < e then (content.length : Int) else e

end ArduinoString

/-- Helper: the executed-entry trace of `run_all_tests` is the whole
catalog whenever no body aborts the process. -/
theorem run_all_tests_fst_of_no_abort (ts : List TestInfo)
    (h : ∀ t ∈ ts, t.func ≠ .aborted) : (run_all_tests ts).1 = ts := by
  induction ts with
  | nil => rfl
  | cons t ts ih =>
    have ht : t.func ≠ .aborted := h t (List.mem_cons_self t ts)
    have hts : ∀ u ∈ ts, u.func ≠ .aborted := fun u hu => h u (List.mem_cons_of_mem t hu)
    cases hf : t.func with
    | ok => simp [run_all_tests, hf, ih hts]
    | exn m => simp [run_all_tests, hf, ih hts]
    | exnOther => simp [run_all_tests, hf, ih hts]
    | aborted => exact absurd hf ht

/-- C1: the claim says a failed assertion aborts only the current test
body and the remaining tests still run, with the runner returning the
failure count. In the code every `ASSERT_*` macro is the C `assert`
macro, whose failure calls `abort()`: with two registered tests whose
first body executes `ASSERT_EQ(1, 2)`, only the first body is ever
invoked, the second test never runs, and `run_all_tests` never returns a
failure count (the process dies inside the first body). -/
theorem C1_assert_aborts_whole_run :
    run_all_tests
        [⟨"Suite.First", ASSERT_EQ 1 2⟩, ⟨"Suite.Second", Outcome.ok⟩]
      = ([⟨"Suite.First", ASSERT_EQ 1 2⟩], none) ∧
    (([⟨"Suite.First", ASSERT_EQ 1 2⟩], none) : List TestInfo × Option Nat)
      ≠ ([⟨"Suite.First", ASSERT_EQ 1 2⟩, ⟨"Suite.Second", Outcome.ok⟩], some 1) := by
  exact ⟨rfl, by decide⟩

/-- C2: the claim says the teardown hook runs unconditionally, even when
the body signals failure. The `TEST_F` driver is the straight-line
sequence `SetUp(); TestBody(); TearDown();`, so when the body throws an
exception `TearDown` is skipped, and when the body's `assert` fails the
process aborts before `TearDown`; in both cases the teardown hook does
not run. -/
theorem C2_teardown_skipped_on_failure :
    (TEST_F_run .ok (.exn "assertion failed") .ok).tearDownRan = false ∧
    (TEST_F_run .ok (ASSERT_EQ 1 2) .ok).tearDownRan = false := by
  decide

/-- C10: registering a second test under an already-used qualified name
never fails and does not overwrite the earlier entry: both entries end
up appended to the catalog at their own positions, and (provided no body
aborts the process) the runner invokes every catalog entry, so both
same-named bodies run, each at its own position in registration order. -/
theorem C10_duplicate_name_keeps_both (pre : List TestInfo) (name : String)
    (f g : Outcome) (hpre : ∀ t ∈ pre, t.func ≠ .aborted)
    (hf : f ≠ .aborted) (hg : g ≠ .aborted) :
    register_test (register_test pre name f) name g
      = pre ++ [⟨name, f⟩, ⟨name, g⟩] ∧
    (run_all_tests (register_test (register_test pre name f) name g)).1
      = pre ++ [⟨name, f⟩, ⟨name, g⟩] := by
  constructor
  · simp [register_test]
  · rw [run_all_tests_fst_of_no_abort]
    · simp [register_test]
    · intro t ht
      simp only [register_test, List.append_assoc, List.mem_append,
        List.mem_cons, List.not_mem_nil, or_false, List.mem_singleton] at ht
      rcases ht with h | rfl | rfl
      · exact hpre t h
      · exact hf
      · exact hg

/-- Witness for C10 at a concrete catalog: an empty prior catalog and two
bodies `ok` and a thrown exception, both registered as "Suite.Dup". -/
theorem C10_duplicate_name_keeps_both_witness :
    register_test (register_test [] "Suite.Dup" .ok) "Suite.Dup" (.exn "boom")
      = [⟨"Suite.Dup", .ok⟩, ⟨"Suite.Dup", .exn "boom"⟩] ∧
    (run_all_tests
        (register_test (register_test [] "Suite.Dup" .ok) "Suite.Dup" (.exn "boom"))).1
      = [⟨"Suite.Dup", .ok⟩, ⟨"Suite.Dup", .exn "boom"⟩] := by
  have h := C10_duplicate_name_keeps_both [] "Suite.Dup" .ok (.exn "boom")
    (by intro t ht; simp at ht) (by decide) (by decide)
  simpa using h

/-- C3: the claim says every `write`/`writeLine` form — text value, raw
byte string, or integer — appends the rendered text to the per-call log
AND to the running output buffer and increments the corresponding call
counter. Counterexample: `Serial.print(5)` (the integer overload) on a
fresh `Serial` logs the fragment "5" but leaves the output buffer empty
and the print counter at 0, whereas the claim requires buffer "5" and
counter 1. -/
theorem C3_print_int_counterexample :
    (SerialState.print_int SerialState.init 5).print_calls = ["5"] ∧
    (SerialState.print_int SerialState.init 5).outputBuffer = "" ∧
    (SerialState.print_int SerialState.init 5).print_call_count = 0 ∧
    ¬((SerialState.print_int SerialState.init 5).outputBuffer = "5" ∧
      (SerialState.print_int SerialState.init 5).print_call_count = 1) := by
  refine ⟨rfl, rfl, rfl, ?_⟩
  intro h
  exact absurd h.2 (by decide)

/-- C3 amended: the raw-byte-string and text-value forms of `print` /
`println` append the rendered fragment to both the per-call log and the
output buffer and increment the corresponding counter, `println` adding
the line terminator to the buffer only; the integer forms instead append
the rendered decimal only to the per-call log, leaving the output buffer
and both call counters unchanged. -/
theorem C3_console_logging (s : SerialState) (str : String) (val : Int) :
    ((s.print_cstr str).print_calls = s.print_calls ++ [str] ∧
     (s.print_cstr str).outputBuffer = s.outputBuffer ++ str ∧
     (s.print_cstr str).print_call_count = s.print_call_count + 1) ∧
    ((s.println_cstr str).println_calls = s.println_calls ++ [str] ∧
     (s.println_cstr str).outputBuffer = s.outputBuffer ++ str ++ "\n" ∧
     (s.println_cstr str).println_call_count = s.println_call_count + 1) ∧
    (s.print_String str = s.print_cstr str ∧
     s.println_String str = s.println_cstr str) ∧
    ((s.print_int val).print_calls = s.print_calls ++ [toString val] ∧
     (s.print_int val).outputBuffer = s.outputBuffer ∧
     (s.print_int val).print_call_count = s.print_call_count ∧
     (s.print_int val).println_call_count = s.println_call_count) ∧
    ((s.println_int val).println_calls = s.println_calls ++ [toString val] ∧
     (s.println_int val).outputBuffer = s.outputBuffer ∧
     (s.println_int val).println_call_count = s.println_call_count ∧
     (s.println_int val).print_call_count = s.print_call_count) := by
  refine ⟨⟨rfl, ?_, rfl⟩, ⟨rfl, ?_, rfl⟩, ⟨rfl, rfl⟩, ⟨rfl, rfl, rfl, rfl⟩,
    ⟨rfl, rfl, rfl, rfl⟩⟩
  · rfl
  · simp [SerialState.println_cstr, String.append_assoc]

/-- Helper: the write call log after a run of `digitalWrite` calls is
the prior log extended by those calls in order. -/
theorem applyWrites_log (ws : List (Int × Int)) (s : ArduinoState) :
    (applyWrites s ws).mock_digitalWrite_calls
      = s.mock_digitalWrite_calls ++ ws := by
  induction ws generalizing s with
  | nil => simp [applyWrites]
  | cons w ws ih =>
    simp [applyWrites, List.foldl_cons] at ih ⊢
    rw [ih]
    simp [digitalWrite]

/-- Helper: reading a pin after a write reads the written value for that
pin and is unchanged for other pins. -/
theorem digitalRead_digitalWrite (s : ArduinoState) (pin value q : Int) :
    digitalRead (digitalWrite s pin value) q
      = if pin = q then value else digitalRead s q := by
  by_cases h : pin = q
  · simp [digitalRead, digitalWrite, List.find?, h]
  · have hb : (pin == q) = false := by simpa using h
    simp [digitalRead, digitalWrite, List.find?, hb, h]

/-- Helper: reading after a run of writes yields the most recent value
written to that pin, falling back to the prior reading. -/
theorem digitalRead_applyWrites (ws : List (Int × Int)) (s : ArduinoState) (pin : Int) :
    digitalRead (applyWrites s ws) pin
      = (mostRecentWrite ws pin).getD (digitalRead s pin) := by
  induction ws generalizing s with
  | nil => rfl
  | cons w ws ih =>
    show digitalRead (applyWrites (digitalWrite s w.1 w.2) ws) pin = _
    rw [ih]
    cases hm : mostRecentWrite ws pin with
    | some v => simp [mostRecentWrite, hm, Option.or]
    | none =>
      simp only [mostRecentWrite, hm, Option.or, Option.getD,
        digitalRead_digitalWrite]
      by_cases h : w.1 = pin <;> simp [h]

/-- Helper: a pin that occurs in no write of `ws` has no most recent
written value. -/
theorem mostRecentWrite_eq_none (ws : List (Int × Int)) (pin : Int)
    (h : ∀ w ∈ ws, w.1 ≠ pin) : mostRecentWrite ws pin = none := by
  induction ws with
  | nil => rfl
  | cons w ws ih =>
    have hw : w.1 ≠ pin := h w (List.mem_cons_self w ws)
    have hws : ∀ u ∈ ws, u.1 ≠ pin := fun u hu => h u (List.mem_cons_of_mem w hu)
    simp [mostRecentWrite, ih hws, hw, Option.or]

/-- C6: starting from a reset state and running any sequence of
`digitalWrite` calls: a pin never written reads as the default 0; every
pin reads as the most recent value written to it (default 0 when none);
the write call log holds exactly one entry per call, in call order; and
`reset_arduino_stubs` clears the pin-state table and the write call log
together, from any state. -/
theorem C6_digital_io_state (ws : List (Int × Int)) (pin : Int)
    (hnever : ∀ w ∈ ws, w.1 ≠ pin) :
    digitalRead (applyWrites (reset_arduino_stubs arduinoInit) ws) pin = 0 ∧
    (∀ q : Int, digitalRead (applyWrites (reset_arduino_stubs arduinoInit) ws) q
        = (mostRecentWrite ws q).getD 0) ∧
    (applyWrites (reset_arduino_stubs arduinoInit) ws).mock_digitalWrite_calls = ws ∧
    (∀ s : ArduinoState, (reset_arduino_stubs s).pin_states = [] ∧
        (reset_arduino_stubs s).mock_digitalWrite_calls = []) := by
  have hread : ∀ q : Int,
      digitalRead (applyWrites (reset_arduino_stubs arduinoInit) ws) q
        = (mostRecentWrite ws q).getD 0 := by
    intro q
    rw [digitalRead_applyWrites]
    rfl
  refine ⟨?_, hread, ?_, fun s => ⟨rfl, rfl⟩⟩
  · rw [hread pin, mostRecentWrite_eq_none ws pin hnever]
    rfl
  · rw [applyWrites_log]
    rfl

/-- Witness for C6: a concrete run writing pins 2 and 3 and reading the
never-written pin 7. -/
theorem C6_digital_io_state_witness :
    digitalRead (applyWrites (reset_arduino_stubs arduinoInit) [(2, 1), (3, 0), (2, 0)]) 7 = 0 ∧
    digitalRead (applyWrites (reset_arduino_stubs arduinoInit) [(2, 1), (3, 0), (2, 0)]) 2
      = (mostRecentWrite [(2, 1), (3, 0), (2, 0)] 2).getD 0 ∧
    (applyWrites (reset_arduino_stubs arduinoInit) [(2, 1), (3, 0), (2, 0)]).mock_digitalWrite_calls
      = [(2, 1), (3, 0), (2, 0)] := by
  have h := C6_digital_io_state [(2, 1), (3, 0), (2, 0)] 7 (by decide)
  exact ⟨h.1, h.2.1 2, h.2.2.1⟩

/-- C7: from any client state, configuring response code 404 and body
"not found" makes `GET()` return 404 and `getString()` return
"not found"; after `reset()` the same two calls yield 200 and "" and the
begin counter is zero. -/
theorem C7_http_configuration (c : HTTPClient) :
    ((c.setResponseCode 404).setResponseString "not found").GET = 404 ∧
    ((c.setResponseCode 404).setResponseString "not found").getString = "not found" ∧
    (((c.setResponseCode 404).setResponseString "not found").reset).GET = 200 ∧
    (((c.setResponseCode 404).setResponseString "not found").reset).getString = "" ∧
    (((c.setResponseCode 404).setResponseString "not found").reset).begin_call_count = 0 := by
  exact ⟨rfl, rfl, rfl, rfl, rfl⟩

/-- Helper: a run of `k` `available()` calls from counter `c` answers
`c + i < 10` on its `i`-th call and leaves the counter at `c + k`. -/
theorem availableRun_spec (k c : Nat) :
    (availableRun k c).1 = (List.range' c k).map (fun i => decide (i < streamLength)) ∧
    (availableRun k c).2 = c + k := by
  induction k generalizing c with
  | zero => simp [availableRun]
  | succ k ih =>
    have h := ih (c + 1)
    constructor
    · show decide (c < streamLength) :: (availableRun k (c + 1)).1
        = (List.range' c (k + 1)).map (fun i => decide (i < streamLength))
      rw [h.1]
      rfl
    · show (availableRun k (c + 1)).2 = c + (k + 1)
      rw [h.2]
      omega

/-- C4: the claim says every handle returned by `open` sees
`available() == true` for exactly 10 calls, in particular a second
handle opened after reads on a first handle. Counterexample: open a
first handle at process start and exhaust its 10 `available()` calls
(all true); a second handle opened afterwards answers `false` on its
very first `available()` call, because the counter is a single static
shared by all `File` objects — the claim requires `true`. -/
theorem C4_second_handle_counterexample :
    (availableRun 10 (SPIFFSClass.open "/first.txt" "r" 0)).1 = List.replicate 10 true ∧
    (File.available (SPIFFSClass.open "/second.txt" "r"
        (availableRun 10 (SPIFFSClass.open "/first.txt" "r" 0)).2)).1 = false := by
  constructor
  · rfl
  · rfl

/-- C4 amended: `available()` answers true for exactly the first 10
calls made in the whole process and false on every call after that,
independent of path and mode arguments and of which handle makes the
call; `open` never resets this shared countdown. -/
theorem C4_shared_stream_counter (k : Nat) (p1 m1 p2 m2 : String) :
    (availableRun k (SPIFFSClass.open p1 m1 0)).1
      = (List.range k).map (fun i => decide (i < streamLength)) ∧
    (File.available (SPIFFSClass.open p2 m2
        (availableRun k (SPIFFSClass.open p1 m1 0)).2)).1
      = decide (k < streamLength) ∧
    (∀ p m c, SPIFFSClass.open p m c = c) := by
  have h := availableRun_spec k 0
  refine ⟨?_, ?_, fun p m c => rfl⟩
  · show (availableRun k 0).1 = _
    rw [h.1, List.range_eq_range']
  · show (File.available (availableRun k 0).2).1 = _
    rw [h.2]
    simp [File.available]

/-- C5: for every text value and all integers `s`, `e` (negative,
inverted or out-of-bounds included) `substring(s, e)` is total — the
model is a plain function, no error case exists — the result's length
never exceeds `max 0 (clamp(e) - clamp(s))` with `start` clamped to at
least 0 and `end` clamped to the length when it is the -1 sentinel or
exceeds the length, and an empty or inverted clamped range yields the
empty text. -/
theorem C5_substring_total_and_bounded (content : String) (s e : Int) :
    ((ArduinoString.substring content s e).length : Int)
      ≤ max 0 (ArduinoString.clampEnd content e - ArduinoString.clampStart s) ∧
    (ArduinoString.clampEnd content e ≤ ArduinoString.clampStart s →
      ArduinoString.substring content s e = "") := by
  simp only [ArduinoString.substring, ArduinoString.clampStart,
    ArduinoString.clampEnd]
  constructor
  · split_ifs <;>
      simp only [String.length, String.toList, String.mk, List.length_take,
        List.length_drop, List.length_nil, Nat.cast_min] <;>
      omega
  · split_ifs <;> intro h <;> first | rfl | (exfalso; omega)

/-- Witness for C5 at the concrete inverted range `substring("hello", 4, 2)`. -/
theorem C5_substring_total_and_bounded_witness :
    ((ArduinoString.substring "hello" 4 2).length : Int)
      ≤ max 0 (ArduinoString.clampEnd "hello" 2 - ArduinoString.clampStart 4) ∧
    ArduinoString.substring "hello" 4 2 = "" := by
  have h := C5_substring_total_and_bounded "hello" 4 2
  exact ⟨h.1, h.2 (by decide)⟩

/-- Helper: `takeWhile` of a list none of whose elements satisfies the
predicate is empty. -/
theorem takeWhile_eq_nil_of_forall_false {p : Char → Bool} :
    ∀ l : List Char, (∀ c ∈ l, p c = false) → l.takeWhile p = []
  | [], _ => rfl
  | c :: l, h => by
    simp [List.takeWhile_cons, h c (List.mem_cons_self c l)]

/-- C8: `toInt()` parses a leading integer and returns 0 on any parse
failure: "42abc" parses to 42, "abc" and "" yield 0, and in general any
text containing no decimal digit at all fails to parse and yields 0. -/
theorem C8_toInt_leading_integer :
    ArduinoString.toInt "42abc" = 42 ∧
    ArduinoString.toInt "abc" = 0 ∧
    ArduinoString.toInt "" = 0 ∧
    (∀ content : String, (∀ c ∈ content.toList, ¬ c.isDigit) →
      ArduinoString.toInt content = 0) := by
  refine ⟨by decide, by decide, by decide, ?_⟩
  intro content h
  have hall : ∀ c ∈ content.toList.dropWhile ArduinoString.isCSpace,
      c.isDigit = false := by
    intro c hc
    have hmem : c ∈ content.toList := (List.dropWhile_sublist _).mem hc
    simpa using h c hmem
  have htail : ∀ c ∈ (content.toList.dropWhile ArduinoString.isCSpace).tail,
      c.isDigit = false := fun c hc =>
    hall c ((List.tail_sublist _).mem hc)
  have hw : (content.toList.dropWhile ArduinoString.isCSpace).takeWhile
      Char.isDigit = [] := takeWhile_eq_nil_of_forall_false _ hall
  have hwt : (content.toList.dropWhile ArduinoString.isCSpace).tail.takeWhile
      Char.isDigit = [] := takeWhile_eq_nil_of_forall_false _ htail
  simp only [ArduinoString.toInt]
  split_ifs <;> simp_all

/-- Witness for C8's general clause at the digit-free text "xyz". -/
theorem C8_toInt_leading_integer_witness : ArduinoString.toInt "xyz" = 0 :=
  C8_toInt_leading_integer.2.2.2 "xyz" (by decide)

/-- C9: the claim says `indexOf(needle, fromIndex)` returns the first
occurrence at or after `fromIndex` for every integer `fromIndex`.
Counterexample at `fromIndex = -1`: "a" occurs in "abc" at position 0,
which is at-or-after -1, so the spec reading gives 0; the code converts
the negative `int` to a huge `size_t` before calling
`std::string::find`, which therefore returns `npos`, and `indexOf`
returns -1. -/
theorem C9_negative_fromIndex_counterexample :
    ArduinoString.indexOf "abc" "a" (-1) = -1 ∧
    ArduinoString.specIndexOf "abc" "a" (-1) = 0 ∧
    ArduinoString.indexOf "abc" "a" (-1)
      ≠ ArduinoString.specIndexOf "abc" "a" (-1) := by
  refine ⟨by decide, by decide, by decide⟩

/-- Helper: `find?` only depends on the predicate's values on the
elements of the list. -/
theorem find?_congr_on {α : Type} (p q : α → Bool) :
    ∀ l : List α, (∀ a ∈ l, p a = q a) → l.find? p = l.find? q
  | [], _ => rfl
  | a :: l, h => by
    have ha := h a (List.mem_cons_self a l)
    by_cases hq : q a = true
    · rw [List.find?_cons_of_pos _ (by rw [ha]; exact hq),
        List.find?_cons_of_pos _ hq]
    · rw [List.find?_cons_of_neg _ (by rw [ha]; exact hq),
        List.find?_cons_of_neg _ hq]
      exact find?_congr_on p q l fun x hx => h x (List.mem_cons_of_mem a hx)

/-- Helper: for a non-negative `fromIndex` of value `pos`, the spec's
"first occurrence at or after `fromIndex`" search over all positions
computes exactly `std::string::find` from `pos`. -/
theorem spec_search_eq_stringFind (hay needle : List Char) (fromIndex : Int)
    (pos : Nat) (hpos : (pos : Int) = fromIndex) :
    (List.range (hay.length + 1)).find?
        (fun (i : Nat) => decide (fromIndex ≤ (i : Int)) &&
          ArduinoString.occursAt hay needle i)
      = ArduinoString.stringFind hay needle pos := by
  unfold ArduinoString.stringFind
  by_cases hle : pos ≤ hay.length
  · have hsplit : hay.length + 1 = (hay.length + 1 - pos) + pos := by omega
    conv_lhs =>
      rw [List.range_eq_range', hsplit,
        ← List.range'_append_1 0 pos (hay.length + 1 - pos)]
    rw [List.find?_append]
    have hnone : (List.range' 0 pos).find?
        (fun (i : Nat) => decide (fromIndex ≤ (i : Int)) &&
          ArduinoString.occursAt hay needle i) = none := by
      rw [List.find?_eq_none]
      intro x hx
      have hmem := List.mem_range'_1.mp hx
      simp only [Bool.and_eq_true, decide_eq_true_eq, not_and]
      intro hcontra
      exfalso
      omega
    rw [hnone, Option.none_or, Nat.zero_add]
    refine find?_congr_on _ _ _ fun x hx => ?_
    have hmem := List.mem_range'_1.mp hx
    have hdec : decide (fromIndex ≤ (x : Int)) = true := by
      simp only [decide_eq_true_eq]
      omega
    rw [hdec, Bool.true_and]
  · have h0 : hay.length + 1 - pos = 0 := by omega
    rw [h0]
    rw [List.find?_eq_none.mpr]
    · rfl
    · intro x hx
      have hxlt := List.mem_range.mp hx
      simp only [Bool.and_eq_true, decide_eq_true_eq, not_and]
      intro hcontra
      exfalso
      omega

/-- C9 amended: when `fromIndex` is non-negative (and everything fits in
`int`, as real strings do), `indexOf(needle, fromIndex)` returns the
position of the first occurrence of the needle at or after `fromIndex`,
or -1 when none exists; when `fromIndex` is negative, the `int` ->
`size_t` conversion makes the start position astronomically large, so
`indexOf` returns -1 unconditionally, even when an occurrence exists at
or after `fromIndex`. -/
theorem C9_indexOf_fromIndex_semantics (content needle : String)
    (fromIndex : Int) (hlen : (content.length : Int) < 2 ^ 31) :
    (0 ≤ fromIndex → fromIndex < 2 ^ 31 →
      ArduinoString.indexOf content needle fromIndex
        = ArduinoString.specIndexOf content needle fromIndex) ∧
    (-(2 ^ 31) ≤ fromIndex → fromIndex < 0 →
      ArduinoString.indexOf content needle fromIndex = -1) := by
  have hlist : content.toList.length = content.length := rfl
  constructor
  · intro h1 h2
    have hpos : ArduinoString.cppSizeT fromIndex = fromIndex.toNat := by
      unfold ArduinoString.cppSizeT
      omega
    have hcast : ((fromIndex.toNat : Nat) : Int) = fromIndex := by omega
    unfold ArduinoString.indexOf ArduinoString.specIndexOf
    rw [hpos, ← hlist,
      ← spec_search_eq_stringFind content.toList needle.toList fromIndex
        fromIndex.toNat hcast]
    cases hfind : (List.range (content.toList.length + 1)).find?
        (fun (i : Nat) => decide (fromIndex ≤ (i : Int)) &&
          ArduinoString.occursAt content.toList needle.toList i) with
    | none => rfl
    | some i =>
      have hi : i ∈ List.range (content.toList.length + 1) :=
        List.mem_of_find?_eq_some hfind
      have hilt := List.mem_range.mp hi
      show ArduinoString.cppIntOfNat i = (i : Int)
      unfold ArduinoString.cppIntOfNat
      omega
  · intro h1 h2
    have hbig : ArduinoString.cppSizeT fromIndex ≥ 2 ^ 64 - 2 ^ 31 := by
      unfold ArduinoString.cppSizeT
      omega
    unfold ArduinoString.indexOf ArduinoString.stringFind
    have h0 : content.toList.length + 1 - ArduinoString.cppSizeT fromIndex = 0 := by
      omega
    rw [h0]
    rfl

/-- Witness for C9 amended at concrete inputs: searching "abcabc" for
"bc" from index 2 finds position 4 (the spec search agrees), and from
index -5 the conversion to `size_t` makes the result -1. -/
theorem C9_indexOf_fromIndex_semantics_witness :
    ArduinoString.indexOf "abcabc" "bc" 2
      = ArduinoString.specIndexOf "abcabc" "bc" 2 ∧
    ArduinoString.indexOf "abcabc" "bc" (-5) = -1 := by
  have h1 := (C9_indexOf_fromIndex_semantics "abcabc" "bc" 2 (by decide)).1
    (by decide) (by decide)
  have h2 := (C9_indexOf_fromIndex_semantics "abcabc" "bc" (-5) (by decide)).2
    (by decide) (by decide)
  exact ⟨h1, h2⟩
